import Mathlib

/-!
Shallow embedding of the snapshot caching and fan-out subsystem of the
macroquant-intel gateway (Go backend), together with proofs about its
freshness policy, single-flight refresh, circuit breaker, upstream retry
loop, topic lifecycle and cache-key normalization.

Timestamps (`time.Time`) are modelled as integers (nanoseconds on an
absolute scale, the zero value being `0`), durations (`time.Duration`)
likewise as integers, and `time.Since(t)` at current instant `now` as
`now - t`.  External library calls (JSON marshalling, RFC3339 parsing and
formatting, the SHA-1 hash) are modelled by explicit parameters or by
constructor-level inductives, as noted at each definition.
-/

namespace Macroquant

/-- Model of `time.Time`: nanoseconds on an absolute scale; `0` is the zero value. -/
abbrev Time := Int

/-- Model of `time.Duration`: nanoseconds. -/
abbrev Duration := Int

/-! ## Circuit breaker (`circuitBreaker` in the Python client file)

The Go struct holds a mutex plus the four fields below; every method takes
the lock for its whole body, so each method is one atomic state transition.
-/

/-- State of `circuitBreaker` (the `mu sync.Mutex` field is the atomicity of
each transition and carries no data). -/
structure circuitBreaker where
  failures : Int
  threshold : Int
  openedAt : Time
  cooldown : Duration
deriving DecidableEq, Repr

/-- `newCircuitBreaker(threshold, cooldown)`. -/
def newCircuitBreaker (threshold : Int) (cooldown : Duration) : circuitBreaker :=
  { failures := 0, threshold := threshold, openedAt := 0, cooldown := cooldown }

/-- `circuitBreaker.allow()` at instant `now`: returns the decision and the
updated state.  `time.Since(c.openedAt) > c.cooldown` is `now - openedAt >
cooldown`; on cooldown expiry the breaker resets `failures` to 0 and clears
`openedAt` before returning true. -/
def circuitBreaker.allow (c : circuitBreaker) (now : Time) : Bool × circuitBreaker :=
  if c.failures < c.threshold then
    (true, c)
  else if now - c.openedAt > c.cooldown then
    (true, { c with failures := 0, openedAt := 0 })
  else
    (false, c)

/-- `circuitBreaker.success()`: resets the failure count and the open timestamp. -/
def circuitBreaker.success (c : circuitBreaker) : circuitBreaker :=
  { c with failures := 0, openedAt := 0 }

/-- `circuitBreaker.fail()` at instant `now`: increments the failure count and,
whenever the incremented count is at or above the threshold, stamps
`openedAt := now`. -/
def circuitBreaker.fail (c : circuitBreaker) (now : Time) : circuitBreaker :=
  let f := c.failures + 1
  if f ≥ c.threshold then
    { c with failures := f, openedAt := now }
  else
    { c with failures := f }

/-! ## Data model (`models` package)

`models.IntelResponse` has many payload fields (market, leaders, news,
risk panels, ...); the caching subsystem only inspects `TsISO` and treats
everything else as opaque payload, so the remaining fields are collapsed
into one opaque `rest` component alongside the string fields the service
echoes. -/

/-- `models.IntelResponse`: `TsISO` and the echoed query strings verbatim;
`rest` stands for the opaque remainder of the payload. -/
structure IntelResponse where
  TsISO : String
  Timeframe : String
  NewsTimespan : String
  rest : String
deriving DecidableEq, Repr

/-- The zero value of `models.IntelResponse` (`var out models.IntelResponse`). -/
def zeroIntelResponse : IntelResponse :=
  { TsISO := "", Timeframe := "", NewsTimespan := "", rest := "" }

/-- Model of Go `strings.ToLower`: lower-case each rune. -/
def stringsToLower (s : String) : String :=
  String.mk (s.data.map Char.toLower)

/-- Drop leading whitespace characters from a character list. -/
def dropLeadingSpace : List Char → List Char
  | [] => []
  | c :: cs => if c.isWhitespace then dropLeadingSpace cs else c :: cs

/-- Model of Go `strings.TrimSpace`: strip whitespace from both ends. -/
def stringsTrimSpace (s : String) : String :=
  String.mk ((dropLeadingSpace (dropLeadingSpace s.data).reverse).reverse)

/-! ## Upstream client retry loop (`PythonClient.RunIntel`)

One HTTP try is abstracted by its observable outcome: either a
transport-level error from `intelClient.Do`, or a response carrying a
status code and the result of decoding its body (`none` = decode failure).
`tries i` is the outcome the network would produce for attempt `i`, and
`ctxDone i` tells whether the caller's context expires during the backoff
wait that follows a failed attempt `i`. -/

/-- Observable outcome of one HTTP attempt inside `RunIntel`. -/
inductive TryOutcome where
  | transportErr : String → TryOutcome
  | httpResp : Int → Option IntelResponse → TryOutcome
deriving DecidableEq, Repr

/-- Classification of one attempt, mirroring the body of the retry loop:
a transport error, a status `>= 300`, or a decode failure is a failed try;
otherwise the decoded response is the success. -/
def tryResult : TryOutcome → Except String IntelResponse
  | .transportErr e => .error e
  | .httpResp status decoded =>
    if status ≥ 300 then
      .error ("python intel: " ++ toString status)
    else
      match decoded with
      | none => .error "decode error"
      | some out => .ok out

/-- The error `ctx.Err()` surfaces as when the context expires during a
backoff wait. -/
def ctxErrMsg : String := "context deadline exceeded"

/-- The retry loop of `RunIntel`, with `remaining` tries left, currently at
attempt index `attempt`, and `lastErr` the error of the previous failed try.
On a failed try the loop waits out the backoff, aborting with `ctx.Err()`
and a breaker failure if the context expires during the wait; exhausting the
budget records a breaker failure and returns the last error. -/
def runIntelAttempts (tries : Nat → TryOutcome) (ctxDone : Nat → Bool)
    (cb : circuitBreaker) (now : Time) :
    Nat → Nat → String → Except String IntelResponse × circuitBreaker
  | 0, _, lastErr => (.error lastErr, cb.fail now)
  | remaining + 1, attempt, _ =>
    match tryResult (tries attempt) with
    | .ok out => (.ok out, cb.success)
    | .error e =>
      if ctxDone attempt then
        (.error ctxErrMsg, cb.fail now)
      else
        runIntelAttempts tries ctxDone cb now remaining (attempt + 1) e

/-- `PythonClient.RunIntel`: consult the breaker first (failing fast with a
distinct error when open), then run up to 3 tries. -/
def RunIntel (cb : circuitBreaker) (now : Time) (tries : Nat → TryOutcome)
    (ctxDone : Nat → Bool) : Except String IntelResponse × circuitBreaker :=
  match cb.allow now with
  | (false, cb') => (.error "python circuit breaker open", cb')
  | (true, cb') => runIntelAttempts tries ctxDone cb' now 3 0 ""

/-! ## Key-value cache and cached entries (`Cache`, `intelCacheEntry`)

The `Cache` interface stores opaque bytes.  Bytes are modelled at the level
the service observes them: either the JSON marshalling of an
`intelCacheEntry` (which `UnmarshalCache` recovers exactly), or junk bytes
on which `UnmarshalCache` fails.  The cache itself is an association list
of `(key, bytes, ttl)`; `Set` overwrites the key and records the TTL it was
called with.  (Entry expiry in the real backends only turns a `Get` into a
miss, which the theorems cover through the absent-key case.) -/

/-- `SnapshotMeta` (zero values as field defaults, matching Go's zero struct). -/
structure SnapshotMeta where
  Source : String := ""
  Stale : Bool := false
  Err : String := ""
  FetchedAt : String := ""
deriving DecidableEq, Repr

/-- `IntelSnapshot`. -/
structure IntelSnapshot where
  Resp : IntelResponse
  Meta : SnapshotMeta
deriving DecidableEq, Repr

/-- `intelCacheEntry`: the JSON shape stored in the cache. -/
structure intelCacheEntry where
  FetchedAt : String
  Resp : IntelResponse
deriving DecidableEq, Repr

/-- Bytes held by the key-value cache, seen through the service's decoder. -/
inductive CacheBlob where
  | entry : intelCacheEntry → CacheBlob
  | junk : String → CacheBlob
deriving DecidableEq, Repr

/-- `MarshalCache` on an `intelCacheEntry` (json.Marshal of this struct
cannot fail, so the model is total). -/
def MarshalCache (e : intelCacheEntry) : CacheBlob := .entry e

/-- `UnmarshalCache` into an `intelCacheEntry`. -/
def UnmarshalCache : CacheBlob → Except String intelCacheEntry
  | .entry e => .ok e
  | .junk _ => .error "json unmarshal error"

/-- State of the key-value cache: `(key, bytes, ttl-at-set)` triples,
most recent first. -/
abbrev CacheState := List (String × CacheBlob × Duration)

/-- `Cache.Get`. -/
def cacheGet (cs : CacheState) (key : String) : Option CacheBlob :=
  (cs.find? (fun kv => kv.1 = key)).map (fun kv => kv.2.1)

/-- `Cache.Set`: overwrite `key` with `b`, recording the TTL. -/
def cacheSet (cs : CacheState) (key : String) (b : CacheBlob) (ttl : Duration) : CacheState :=
  (key, b, ttl) :: cs.filter (fun kv => kv.1 ≠ key)

/-- `intelCacheKey`, parameterized by `hash`, the composition of the SHA-1
digest truncated to 8 bytes with hex encoding (a fixed pure function of the
joined watchlist, abstracted since its internals never matter to the
claims): drop empty watchlist entries, lower-case the rest, sort, join with
commas, and assemble the versioned key. -/
def intelCacheKey (hash : String → String) (timeframe newsTimespan : String)
    (watch : List String) : String :=
  let safeWatch := (watch.filter (fun w => w ≠ "")).map stringsToLower
  let sorted := safeWatch.insertionSort (fun a b => a ≤ b)
  "intel:v2:" ++ timeframe ++ ":" ++ newsTimespan ++ ":" ++
    hash (String.intercalate "," sorted)

/-! ## Snapshot cache service (`IntelService`) -/

/-- The configuration fields of `config.Config` the intel service reads. -/
structure IntelConfig where
  CacheTTLIntel : Duration
  CacheTTLIntelHard : Duration
  RequestTimeout : Duration
  IntelTimeout : Duration
deriving DecidableEq, Repr

/-- `hasCacheableIntel`. -/
def hasCacheableIntel (resp : IntelResponse) : Bool :=
  stringsTrimSpace resp.TsISO ≠ ""

/-- `IntelService.intelHardTTL`. -/
def intelHardTTL (cfg : IntelConfig) : Duration :=
  if cfg.CacheTTLIntelHard ≤ 0 then cfg.CacheTTLIntel
  else if cfg.CacheTTLIntelHard < cfg.CacheTTLIntel then cfg.CacheTTLIntel
  else cfg.CacheTTLIntelHard

/-- `IntelService.getCached`, parameterized by the RFC3339 parser
(`time.Parse(time.RFC3339, ·)`, modelled as `parse : String → Option Time`).
The service's cache may be nil (`Option CacheState`).  Returns the decoded
response and its fetch time, or `none` for any miss. -/
def getCached (parse : String → Option Time) (cache : Option CacheState)
    (key : String) : Option (IntelResponse × Time) :=
  match cache with
  | none => none
  | some cs =>
    match cacheGet cs key with
    | none => none
    | some b =>
      match UnmarshalCache b with
      | .error _ => none
      | .ok entry =>
        if hasCacheableIntel entry.Resp then
          match parse entry.FetchedAt with
          | none => none
          | some fetchedAt => some (entry.Resp, fetchedAt)
        else none

/-- Result of `fetchAndCache`: the Go triple `(resp, meta, err)` plus the
cache state after the call. -/
structure FetchResult where
  resp : IntelResponse
  meta : SnapshotMeta
  err : Option String
  cache : Option CacheState
deriving DecidableEq, Repr

/-- `IntelService.fetchAndCache`, parameterized by the RFC3339 formatter
(`fmt`, modelling `t.Format(time.RFC3339)`), with `upstream` the outcome of
the `s.py.RunIntel` call and `now` the instant `time.Now()` returns.  On
success the entry is written (only) when a cache is configured and the
response is cacheable, with TTL `intelHardTTL`. -/
def fetchAndCache (cfg : IntelConfig) (fmt : Time → String)
    (cache : Option CacheState) (key : String)
    (upstream : Except String IntelResponse) (now : Time) : FetchResult :=
  match upstream with
  | .error e =>
    { resp := zeroIntelResponse, meta := { Source := "error", Err := e },
      err := some e, cache := cache }
  | .ok resp =>
    let cache' :=
      match cache with
      | none => none
      | some cs =>
        if hasCacheableIntel resp then
          some (cacheSet cs key (MarshalCache { FetchedAt := fmt now, Resp := resp })
            (intelHardTTL cfg))
        else some cs
    { resp := resp,
      meta := { Source := "fresh", Stale := false, FetchedAt := fmt now },
      err := none, cache := cache' }

/-- `IntelService.refreshAsync`, the critical section over the
`refreshing` map: returns the updated map and whether a new background
refresh was started (false when one is already in flight). -/
def refreshAsync (refreshing : List String) (key : String) : List String × Bool :=
  if key ∈ refreshing then (refreshing, false) else (key :: refreshing, true)

/-- Result of `GetSnapshot`: the Go triple `(resp, meta, err)` plus the
state after the call and flags recording which paths ran
(`refreshRequested` — `refreshAsync` was invoked; `refreshStarted` — a new
background refresh actually began; `upstreamCalled` — the synchronous
`fetchAndCache` path ran). -/
structure SnapResult where
  resp : IntelResponse
  meta : SnapshotMeta
  err : Option String
  cache : Option CacheState
  refreshing : List String
  refreshRequested : Bool
  refreshStarted : Bool
  upstreamCalled : Bool
deriving DecidableEq, Repr

/-- `IntelService.GetSnapshot`, parameterized by the SHA-1-based key hash
(`hash`, see `intelCacheKey`), the RFC3339 parser and formatter, with
`upstream` the outcome `s.py.RunIntel` would produce for this request and
`now` the current instant.  Mirrors the three-tier policy: fresh cache hit,
stale-but-within-hard-TTL hit with an async refresh, and the synchronous
fetch path with stale fallback. -/
def GetSnapshot (cfg : IntelConfig) (hash : String → String)
    (parse : String → Option Time) (fmt : Time → String)
    (cache : Option CacheState) (refreshing : List String)
    (timeframe newsTimespan : String) (watch : List String)
    (now : Time) (upstream : Except String IntelResponse) : SnapResult :=
  let key := intelCacheKey hash timeframe newsTimespan watch
  match getCached parse cache key with
  | some (cached, fetchedAt) =>
    let age := now - fetchedAt
    if age ≤ cfg.CacheTTLIntel then
      { resp := cached,
        meta := { Source := "cache", Stale := false, FetchedAt := fmt fetchedAt },
        err := none, cache := cache, refreshing := refreshing,
        refreshRequested := false, refreshStarted := false, upstreamCalled := false }
    else if age ≤ intelHardTTL cfg then
      let r := refreshAsync refreshing key
      { resp := cached,
        meta := { Source := "stale_cache", Stale := true, FetchedAt := fmt fetchedAt },
        err := none, cache := cache, refreshing := r.1,
        refreshRequested := true, refreshStarted := r.2, upstreamCalled := false }
    else
      let fr := fetchAndCache cfg fmt cache key upstream now
      match fr.err with
      | none =>
        { resp := fr.resp, meta := fr.meta, err := none, cache := fr.cache,
          refreshing := refreshing, refreshRequested := false,
          refreshStarted := false, upstreamCalled := true }
      | some e =>
        { resp := cached,
          meta := { Source := "stale_cache", Stale := true, Err := e,
                    FetchedAt := fmt fetchedAt },
          err := none, cache := fr.cache, refreshing := refreshing,
          refreshRequested := false, refreshStarted := false, upstreamCalled := true }
  | none =>
    let fr := fetchAndCache cfg fmt cache key upstream now
    match fr.err with
    | none =>
      { resp := fr.resp, meta := fr.meta, err := none, cache := fr.cache,
        refreshing := refreshing, refreshRequested := false,
        refreshStarted := false, upstreamCalled := true }
    | some e =>
      { resp := fr.resp, meta := { Source := "error", Err := e },
        err := some e, cache := fr.cache, refreshing := refreshing,
        refreshRequested := false, refreshStarted := false, upstreamCalled := true }

/-! ## Topic fan-out (`intelTopic`, `Subscribe` and its unsubscribe closure)

Subscriber channels are identified by numbers.  A topic records its
subscriber set (`map[chan]struct{}`, modelled as a duplicate-free list),
whether its background refresh loop is running (`cancel` handle /
`go s.runTopic(...)`), and the last published snapshot.  The registry
`s.topics` is an association list with unique keys.  `Subscribe` and the
unsubscribe closure each run under `s.mu`, so each is one atomic
transition on the registry. -/

/-- `intelTopic`: subscriber set, running loop flag (the `cancel` handle),
and last published snapshot (`interval` is fixed per topic and carried by
the loop itself, so it is omitted here). -/
structure intelTopic where
  subs : List Nat
  hasLoop : Bool
  last : Option IntelSnapshot
deriving DecidableEq, Repr

/-- The topic registry `s.topics`. -/
abbrev Topics := List (String × intelTopic)

/-- Lookup in the registry (`s.topics[key]`). -/
def topicsGet : Topics → String → Option intelTopic
  | [], _ => none
  | p :: ps, key => if p.1 = key then some p.2 else topicsGet ps key

/-- Replace the topic bound to `key` (leaving other bindings alone). -/
def topicsSet (ts : Topics) (key : String) (t : intelTopic) : Topics :=
  ts.map (fun p => if p.1 = key then (key, t) else p)

/-- Remove the binding for `key`. -/
def topicsRemove (ts : Topics) (key : String) : Topics :=
  ts.filter (fun p => p.1 ≠ key)

/-- Result of one `Subscribe` call: the new registry, the snapshot
delivered to the fresh subscriber channel (the non-blocking send of
`topic.last` into the fresh one-slot channel always succeeds), and whether
a new refresh loop was started. -/
structure SubscribeResult where
  topics : Topics
  delivered : Option IntelSnapshot
  loopStarted : Bool
deriving DecidableEq, Repr

/-- `IntelService.Subscribe` restricted to its effect on the registry: when
no topic exists for the key, create one (with the new subscriber and a
freshly started loop); otherwise join the existing topic and hand the new
subscriber the topic's last snapshot. -/
def Subscribe (ts : Topics) (key : String) (ch : Nat) : SubscribeResult :=
  match topicsGet ts key with
  | none =>
    { topics := (key, { subs := [ch], hasLoop := true, last := none }) :: ts,
      delivered := none, loopStarted := true }
  | some t =>
    let t' := { t with subs := if ch ∈ t.subs then t.subs else ch :: t.subs }
    { topics := topicsSet ts key t', delivered := t.last, loopStarted := false }

/-- The unsubscribe closure returned by `Subscribe`: remove the channel
from the topic's subscriber set and, when the set becomes empty, cancel the
loop and delete the topic. -/
def unsubscribe (ts : Topics) (key : String) (ch : Nat) : Topics :=
  match topicsGet ts key with
  | none => ts
  | some t =>
    let subs' := t.subs.erase ch
    if subs' = [] then topicsRemove ts key
    else topicsSet ts key { t with subs := subs' }

/-- `IntelService.publish`: record the snapshot as the topic's last value
(subscriber deliveries are non-blocking sends and carry no registry
state). -/
def publish (ts : Topics) (key : String) (snap : IntelSnapshot) : Topics :=
  match topicsGet ts key with
  | none => ts
  | some t => topicsSet ts key { t with last := some snap }

/-- Well-formedness of the registry, as maintained by the service: keys are
unique, and every registered topic has a duplicate-free, non-empty
subscriber set and a running loop. -/
def TopicsWF (ts : Topics) : Prop :=
  (ts.map Prod.fst).Nodup ∧
    ∀ p ∈ ts, p.2.subs ≠ [] ∧ p.2.subs.Nodup ∧ p.2.hasLoop = true

/-! ## Theorems -/

/-- C4 (counterexample): with `threshold = 1`, `cooldown = 5`, one failure
recorded at `openedAt = 0` (so the breaker is open) and `now = 10` past the
cooldown, the first `allow()` returns true — but a second `allow()` call,
before any success or failure of the trial is recorded, returns true as
well, because the first `allow()` already reset `failures` to 0.  The claim
says the second call is not permitted (must return false); it does not. -/
theorem C4_trial_counterexample :
    (circuitBreaker.allow ⟨1, 1, 0, 5⟩ 10).1 = true ∧
    ((circuitBreaker.allow ⟨1, 1, 0, 5⟩ 10).2.allow 10).1 = true ∧
    ¬ (((circuitBreaker.allow ⟨1, 1, 0, 5⟩ 10).2.allow 10).1 = false) := by
  decide

/-- C4 (amended): from a state with `failures ≥ threshold`, `allow()`
returns false (leaving the state unchanged) while `now - openedAt ≤
cooldown`; once the cooldown has elapsed past the open timestamp, `allow()`
returns true and resets the breaker to the closed state (`failures = 0`),
so (for a positive threshold) subsequent `allow()` calls also return true
before the trial's outcome is recorded; a subsequent `success()` keeps
`consecutiveFailures` at 0. -/
theorem C4_breaker_trial (c : circuitBreaker) (now now2 : Time)
    (hopen : c.threshold ≤ c.failures) :
    (now - c.openedAt ≤ c.cooldown →
      (c.allow now).1 = false ∧ (c.allow now).2 = c) ∧
    (c.cooldown < now - c.openedAt →
      (c.allow now).1 = true ∧ (c.allow now).2.failures = 0 ∧
      (0 < c.threshold → ((c.allow now).2.allow now2).1 = true) ∧
      (c.allow now).2.success.failures = 0) := by
  have h1 : ¬ c.failures < c.threshold := not_lt.mpr hopen
  constructor
  · intro hle
    have h2 : ¬ (now - c.openedAt > c.cooldown) := not_lt.mpr hle
    simp [circuitBreaker.allow, h1, h2]
  · intro hgt
    refine ⟨?_, ?_, ?_, ?_⟩
    · simp [circuitBreaker.allow, h1, hgt]
    · simp [circuitBreaker.allow, h1, hgt]
    · intro hth
      simp [circuitBreaker.allow, h1, hgt, hth]
    · simp [circuitBreaker.allow, h1, hgt, circuitBreaker.success]

/-- C4 (witness): the amended theorem applied at `threshold = 2`,
`failures = 2`, `openedAt = 0`, `cooldown = 5`, `now = now2 = 10`. -/
theorem C4_breaker_trial_witness :
    ((⟨2, 2, 0, 5⟩ : circuitBreaker).threshold ≤
        (⟨2, 2, 0, 5⟩ : circuitBreaker).failures) ∧
    ((10 - (⟨2, 2, 0, 5⟩ : circuitBreaker).openedAt ≤
        (⟨2, 2, 0, 5⟩ : circuitBreaker).cooldown →
      (circuitBreaker.allow ⟨2, 2, 0, 5⟩ 10).1 = false ∧
        (circuitBreaker.allow ⟨2, 2, 0, 5⟩ 10).2 = ⟨2, 2, 0, 5⟩) ∧
    ((⟨2, 2, 0, 5⟩ : circuitBreaker).cooldown <
        10 - (⟨2, 2, 0, 5⟩ : circuitBreaker).openedAt →
      (circuitBreaker.allow ⟨2, 2, 0, 5⟩ 10).1 = true ∧
        (circuitBreaker.allow ⟨2, 2, 0, 5⟩ 10).2.failures = 0 ∧
        (0 < (⟨2, 2, 0, 5⟩ : circuitBreaker).threshold →
          ((circuitBreaker.allow ⟨2, 2, 0, 5⟩ 10).2.allow 10).1 = true) ∧
        (circuitBreaker.allow ⟨2, 2, 0, 5⟩ 10).2.success.failures = 0)) :=
  ⟨by decide, C4_breaker_trial ⟨2, 2, 0, 5⟩ 10 10 (by decide)⟩

/-- C5 (counterexample): with `threshold = 1`, one failure already recorded
(`failures = 1 ≥ threshold`, breaker open since `openedAt = 0`, cooldown
100), a further `fail()` at `now = 50` increments the counter and also
moves `openedAt` from 0 to 50 — the cooldown clock is restarted, contrary
to the claim that `openedAt` is left unchanged. -/
theorem C5_openedAt_counterexample :
    (circuitBreaker.fail ⟨1, 1, 0, 100⟩ 50).failures = 2 ∧
    (circuitBreaker.fail ⟨1, 1, 0, 100⟩ 50).openedAt = 50 ∧
    ¬ ((circuitBreaker.fail ⟨1, 1, 0, 100⟩ 50).openedAt
        = (⟨1, 1, 0, 100⟩ : circuitBreaker).openedAt) := by
  decide

/-- C5 (amended): for every `fail()` call made while the breaker is already
open (`failures ≥ threshold`), the failure counter increments and
`openedAt` is reset to the time of that failure, so the cooldown clock
restarts at each further failure (the expiry is postponed, not kept at the
original open time). -/
theorem C5_fail_while_open (c : circuitBreaker) (now : Time)
    (hopen : c.threshold ≤ c.failures) :
    (c.fail now).failures = c.failures + 1 ∧ (c.fail now).openedAt = now := by
  have h : c.failures + 1 ≥ c.threshold := by omega
  simp [circuitBreaker.fail, h]

/-- C5 (witness): the amended theorem applied at `threshold = 1`,
`failures = 1`, `openedAt = 0`, `cooldown = 100`, `now = 50`. -/
theorem C5_fail_while_open_witness :
    ((⟨1, 1, 0, 100⟩ : circuitBreaker).threshold ≤
        (⟨1, 1, 0, 100⟩ : circuitBreaker).failures) ∧
    ((circuitBreaker.fail ⟨1, 1, 0, 100⟩ 50).failures
        = (⟨1, 1, 0, 100⟩ : circuitBreaker).failures + 1 ∧
      (circuitBreaker.fail ⟨1, 1, 0, 100⟩ 50).openedAt = 50) :=
  ⟨by decide, C5_fail_while_open ⟨1, 1, 0, 100⟩ 50 (by decide)⟩

/-- The retry loop only inspects the outcomes of the attempts within its
budget: two runs agreeing on those attempts produce the same result. -/
theorem runIntelAttempts_congr (tries tries' : Nat → TryOutcome)
    (ctxDone ctxDone' : Nat → Bool) (cb : circuitBreaker) (now : Time) :
    ∀ (remaining attempt : Nat) (lastErr : String),
    (∀ i, attempt ≤ i → i < attempt + remaining →
      tries i = tries' i ∧ ctxDone i = ctxDone' i) →
    runIntelAttempts tries ctxDone cb now remaining attempt lastErr
      = runIntelAttempts tries' ctxDone' cb now remaining attempt lastErr := by
  intro remaining
  induction remaining with
  | zero =>
    intro attempt lastErr _
    simp [runIntelAttempts]
  | succ r ih =>
    intro attempt lastErr h
    have ht := h attempt (le_refl _) (by omega)
    simp only [runIntelAttempts, ht.1, ht.2]
    cases tryResult (tries' attempt) with
    | ok out => rfl
    | error e =>
      cases hc : ctxDone' attempt with
      | true => simp
      | false =>
        simp only [Bool.false_eq_true, if_false]
        exact ih (attempt + 1) e (fun i h1 h2 => h i (by omega) (by omega))

/-- A successful result of the retry loop comes from a decoded attempt. -/
theorem runIntelAttempts_ok (tries : Nat → TryOutcome) (ctxDone : Nat → Bool)
    (cb : circuitBreaker) (now : Time) :
    ∀ (remaining attempt : Nat) (lastErr : String) (out : IntelResponse),
    (runIntelAttempts tries ctxDone cb now remaining attempt lastErr).1 = .ok out →
    ∃ i, tryResult (tries i) = .ok out := by
  intro remaining
  induction remaining with
  | zero =>
    intro attempt lastErr out h
    simp [runIntelAttempts] at h
  | succ r ih =>
    intro attempt lastErr out h
    simp only [runIntelAttempts] at h
    cases hr : tryResult (tries attempt) with
    | ok o =>
      rw [hr] at h
      simp at h
      exact ⟨attempt, by rw [hr, h]⟩
    | error e =>
      rw [hr] at h
      cases hc : ctxDone attempt with
      | true => rw [hc] at h; simp at h
      | false =>
        rw [hc] at h
        simp only [Bool.false_eq_true, if_false] at h
        exact ih (attempt + 1) e out h

/-- A fully-decoded response body, used as a concrete witness input. -/
def resp301 : IntelResponse :=
  { TsISO := "2024-01-01T00:00:00Z", Timeframe := "1h", NewsTimespan := "24h",
    rest := "" }

/-- C8 (counterexample): a response with HTTP status 301 (a 3xx) whose body
decodes cleanly is treated as a failed try by `RunIntel` (the code checks
`StatusCode >= 300`): with every attempt returning such a response, the
loop exhausts its 3 tries, records a breaker failure and returns the status
error — it does not return the decoded response as a success, contrary to
the claim that a 3xx response is not a failed try. -/
theorem C8_status3xx_counterexample :
    (RunIntel ⟨0, 3, 0, 60⟩ 0 (fun _ => .httpResp 301 (some resp301))
        (fun _ => false)).1 = .error "python intel: 301" ∧
    (RunIntel ⟨0, 3, 0, 60⟩ 0 (fun _ => .httpResp 301 (some resp301))
        (fun _ => false)).2.failures = 1 ∧
    ¬ ((RunIntel ⟨0, 3, 0, 60⟩ 0 (fun _ => .httpResp 301 (some resp301))
        (fun _ => false)).1 = .ok resp301) := by
  refine ⟨rfl, rfl, fun h => ?_⟩
  simp [RunIntel, circuitBreaker.allow, runIntelAttempts, tryResult] at h

/-- C8 (amended): in `RunIntel`, a try is classified as successful exactly
when it is an HTTP response with status `< 300` whose body decodes (so a
transport error, a status `≥ 300` — 3xx included — or a decode failure is a
failed try that continues the loop); when the breaker allows the call, the
loop returns immediately with a breaker success on the first successful
try, on exhausting all 3 tries (none cancelled) it records a breaker
failure and returns the last error, and the result never depends on
outcomes beyond the first 3 attempts. -/
theorem C8_retry_classification :
    (∀ t : TryOutcome, (∃ r, tryResult t = .ok r) ↔
      ∃ status r, t = .httpResp status (some r) ∧ status < 300) ∧
    (∀ (cb cb' : circuitBreaker) (now : Time) (tries : Nat → TryOutcome)
        (ctxDone : Nat → Bool) (i : Nat) (out : IntelResponse),
      cb.allow now = (true, cb') → i < 3 →
      (∀ j, j < i → (∃ e, tryResult (tries j) = .error e) ∧ ctxDone j = false) →
      tryResult (tries i) = .ok out →
      RunIntel cb now tries ctxDone = (.ok out, cb'.success)) ∧
    (∀ (cb cb' : circuitBreaker) (now : Time) (tries : Nat → TryOutcome)
        (ctxDone : Nat → Bool) (e2 : String),
      cb.allow now = (true, cb') →
      (∀ j, j < 3 → ctxDone j = false) →
      (∀ j, j < 2 → ∃ e, tryResult (tries j) = .error e) →
      tryResult (tries 2) = .error e2 →
      RunIntel cb now tries ctxDone = (.error e2, cb'.fail now)) ∧
    (∀ (cb : circuitBreaker) (now : Time) (tries tries' : Nat → TryOutcome)
        (ctxDone ctxDone' : Nat → Bool),
      (∀ i, i < 3 → tries i = tries' i ∧ ctxDone i = ctxDone' i) →
      RunIntel cb now tries ctxDone = RunIntel cb now tries' ctxDone') := by
  refine ⟨?_, ?_, ?_, ?_⟩
  · intro t
    cases t with
    | transportErr e => simp [tryResult]
    | httpResp status d =>
      by_cases hs : status ≥ 300
      · constructor
        · intro ⟨r, hr⟩
          simp [tryResult, hs] at hr
        · intro ⟨st, r, heq, hlt⟩
          cases heq
          omega
      · cases d with
        | none =>
          constructor
          · intro ⟨r, hr⟩
            simp [tryResult, hs] at hr
          · intro ⟨st, r, heq, _⟩
            cases heq
        | some r =>
          constructor
          · intro _
            exact ⟨status, r, rfl, by omega⟩
          · intro _
            exact ⟨r, by simp [tryResult, hs]⟩
  · intro cb cb' now tries ctxDone i out hcb hi hprev hok
    match i with
    | 0 =>
      simp [RunIntel, hcb, runIntelAttempts, hok]
    | 1 =>
      obtain ⟨⟨e0, he0⟩, hc0⟩ := hprev 0 (by omega)
      simp [RunIntel, hcb, runIntelAttempts, he0, hc0, hok]
    | 2 =>
      obtain ⟨⟨e0, he0⟩, hc0⟩ := hprev 0 (by omega)
      obtain ⟨⟨e1, he1⟩, hc1⟩ := hprev 1 (by omega)
      simp [RunIntel, hcb, runIntelAttempts, he0, hc0, he1, hc1, hok]
    | (n + 3) => omega
  · intro cb cb' now tries ctxDone e2 hcb hctx hprev he2
    obtain ⟨e0, he0⟩ := hprev 0 (by omega)
    obtain ⟨e1, he1⟩ := hprev 1 (by omega)
    simp [RunIntel, hcb, runIntelAttempts, he0, he1, he2,
      hctx 0 (by omega), hctx 1 (by omega), hctx 2 (by omega)]
  · intro cb now tries tries' ctxDone ctxDone' h
    unfold RunIntel
    cases hcb : cb.allow now with
    | mk b cb' =>
      cases b with
      | false => rfl
      | true =>
        exact runIntelAttempts_congr tries tries' ctxDone ctxDone' cb' now 3 0 ""
          (fun i h1 h2 => h i (by omega))

/-- C8 (witness): the amended theorem's success clause applied with a
closed breaker and a first try decoding at status 200. -/
theorem C8_retry_classification_witness :
    (circuitBreaker.allow ⟨0, 3, 0, 60⟩ 0 = (true, ⟨0, 3, 0, 60⟩)) ∧
    RunIntel ⟨0, 3, 0, 60⟩ 0 (fun _ => .httpResp 200 (some zeroIntelResponse))
        (fun _ => false)
      = (.ok zeroIntelResponse, circuitBreaker.success ⟨0, 3, 0, 60⟩) :=
  ⟨by decide,
    C8_retry_classification.2.1 ⟨0, 3, 0, 60⟩ ⟨0, 3, 0, 60⟩ 0
      (fun _ => .httpResp 200 (some zeroIntelResponse)) (fun _ => false) 0
      zeroIntelResponse (by decide) (by omega) (fun j hj => absurd hj (by omega))
      rfl⟩

/-- `hardTTL` is clamped to at least the soft TTL. -/
theorem cacheTTLIntel_le_hard (cfg : IntelConfig) :
    cfg.CacheTTLIntel ≤ intelHardTTL cfg := by
  unfold intelHardTTL
  split_ifs with h1 h2
  · exact le_refl _
  · exact le_refl _
  · exact not_lt.mp h2

/-- `fetchAndCache` reports an error exactly when the upstream call failed. -/
theorem fetchAndCache_err (cfg : IntelConfig) (fmt : Time → String)
    (cache : Option CacheState) (key : String)
    (upstream : Except String IntelResponse) (now : Time) :
    ((fetchAndCache cfg fmt cache key upstream now).err = none ↔
      ∃ r, upstream = .ok r) ∧
    (∀ e, (fetchAndCache cfg fmt cache key upstream now).err = some e ↔
      upstream = .error e) := by
  cases upstream <;> simp [fetchAndCache]

/-! ### Witness fixtures: a concrete configuration, hash, parser, formatter
and a cache holding one entry fetched at instant 0. -/

/-- Witness configuration: soft TTL 30, hard TTL 120. -/
def cfgW : IntelConfig := ⟨30, 120, 12, 90⟩

/-- Witness hash: the identity function. -/
def hashW : String → String := fun s => s

/-- Witness RFC3339 parser: `"T0"` denotes instant 0, all else fails. -/
def parseW : String → Option Time := fun s => if s = "T0" then some 0 else none

/-- Witness RFC3339 formatter. -/
def fmtW : Time → String := fun _ => "F"

/-- Witness cache key for the empty watchlist. -/
def keyW : String := intelCacheKey hashW "1h" "24h" []

/-- Witness cache: one well-formed entry for `keyW` fetched at instant 0. -/
def cacheW : CacheState :=
  [(keyW, MarshalCache { FetchedAt := "T0", Resp := resp301 }, 120)]

/-- C1 (counterexample): a synchronous upstream success whose response has
an empty `TsISO` is returned with `source = "fresh"` and no error, but
nothing is stored in the cache: starting from an empty (but configured)
cache, the cache afterwards is still empty and a lookup of the key misses —
contrary to the claim that on success the result is stored with TTL =
hardTTL. -/
theorem C1_store_counterexample :
    (GetSnapshot cfgW hashW parseW fmtW (some []) [] "1h" "24h" [] 0
        (.ok zeroIntelResponse)).meta.Source = "fresh" ∧
    (GetSnapshot cfgW hashW parseW fmtW (some []) [] "1h" "24h" [] 0
        (.ok zeroIntelResponse)).err = none ∧
    (GetSnapshot cfgW hashW parseW fmtW (some []) [] "1h" "24h" [] 0
        (.ok zeroIntelResponse)).cache = some [] ∧
    cacheGet [] (intelCacheKey hashW "1h" "24h" []) = none := by
  refine ⟨rfl, rfl, by decide, rfl⟩

/-- C1 (amended): `GetSnapshot` follows the three-tier freshness policy —
a cached entry of age `≤ softTTL` is returned as `source = "cache"`, not
stale, with no upstream call; an entry with `softTTL < age ≤ hardTTL` is
returned as `source = "stale_cache"`, stale, with an asynchronous refresh
requested through the refresh lock; when no usable entry exists or
`age > hardTTL` the upstream is called synchronously and, on success, the
result is returned as `source = "fresh"` and stored in the cache with
TTL = hardTTL provided a cache is configured and the response has a
non-empty primary timestamp (a blank-`TsISO` response is returned but not
stored). -/
theorem C1_three_tier_freshness (cfg : IntelConfig) (hash : String → String)
    (parse : String → Option Time) (fmt : Time → String)
    (cache : Option CacheState) (refreshing : List String)
    (timeframe newsTimespan : String) (watch : List String)
    (now : Time) (upstream : Except String IntelResponse) :
    (∀ cached fetchedAt,
      getCached parse cache (intelCacheKey hash timeframe newsTimespan watch)
        = some (cached, fetchedAt) →
      now - fetchedAt ≤ cfg.CacheTTLIntel →
      GetSnapshot cfg hash parse fmt cache refreshing timeframe newsTimespan
          watch now upstream
        = { resp := cached,
            meta := { Source := "cache", Stale := false,
                      FetchedAt := fmt fetchedAt },
            err := none, cache := cache, refreshing := refreshing,
            refreshRequested := false, refreshStarted := false,
            upstreamCalled := false }) ∧
    (∀ cached fetchedAt,
      getCached parse cache (intelCacheKey hash timeframe newsTimespan watch)
        = some (cached, fetchedAt) →
      cfg.CacheTTLIntel < now - fetchedAt →
      now - fetchedAt ≤ intelHardTTL cfg →
      GetSnapshot cfg hash parse fmt cache refreshing timeframe newsTimespan
          watch now upstream
        = { resp := cached,
            meta := { Source := "stale_cache", Stale := true,
                      FetchedAt := fmt fetchedAt },
            err := none, cache := cache,
            refreshing := (refreshAsync refreshing
              (intelCacheKey hash timeframe newsTimespan watch)).1,
            refreshRequested := true,
            refreshStarted := (refreshAsync refreshing
              (intelCacheKey hash timeframe newsTimespan watch)).2,
            upstreamCalled := false }) ∧
    (∀ resp, upstream = .ok resp →
      (getCached parse cache (intelCacheKey hash timeframe newsTimespan watch)
          = none ∨
        (∃ c0 f0, getCached parse cache
            (intelCacheKey hash timeframe newsTimespan watch) = some (c0, f0) ∧
          intelHardTTL cfg < now - f0)) →
      GetSnapshot cfg hash parse fmt cache refreshing timeframe newsTimespan
          watch now upstream
        = { resp := resp,
            meta := { Source := "fresh", Stale := false, FetchedAt := fmt now },
            err := none,
            cache := (fetchAndCache cfg fmt cache
              (intelCacheKey hash timeframe newsTimespan watch) upstream now).cache,
            refreshing := refreshing, refreshRequested := false,
            refreshStarted := false, upstreamCalled := true }) ∧
    (∀ (key : String) (cs : CacheState) resp, hasCacheableIntel resp = true →
      (fetchAndCache cfg fmt (some cs) key (.ok resp) now).cache
        = some (cacheSet cs key
            (MarshalCache { FetchedAt := fmt now, Resp := resp })
            (intelHardTTL cfg))) ∧
    (∀ (key : String) (cs : CacheState) resp, hasCacheableIntel resp = false →
      (fetchAndCache cfg fmt (some cs) key (.ok resp) now).cache = some cs) := by
  refine ⟨?_, ?_, ?_, ?_, ?_⟩
  · intro cached fetchedAt hget hage
    simp [GetSnapshot, hget, hage]
  · intro cached fetchedAt hget hsoft hhard
    simp [GetSnapshot, hget, not_le.mpr hsoft, hhard]
  · intro resp hup hcase
    subst hup
    rcases hcase with hnone | ⟨c0, f0, hget0, hold⟩
    · simp [GetSnapshot, hnone, fetchAndCache]
    · have h1 : ¬ (now - f0 ≤ cfg.CacheTTLIntel) := by
        have := cacheTTLIntel_le_hard cfg
        intro hcontra
        linarith
      have h2 : ¬ (now - f0 ≤ intelHardTTL cfg) := not_le.mpr hold
      simp [GetSnapshot, hget0, h1, h2, fetchAndCache]
  · intro key cs resp hc
    simp [fetchAndCache, hc]
  · intro key cs resp hc
    simp [fetchAndCache, hc]

/-- C1 (witness): the amended theorem's fast-path clause applied to the
witness cache at `now = 10` (age 10 ≤ soft TTL 30). -/
theorem C1_three_tier_freshness_witness :
    (getCached parseW (some cacheW) (intelCacheKey hashW "1h" "24h" [])
      = some (resp301, 0)) ∧
    ((10 : Int) - 0 ≤ cfgW.CacheTTLIntel) ∧
    GetSnapshot cfgW hashW parseW fmtW (some cacheW) [] "1h" "24h" [] 10
        (.error "down")
      = { resp := resp301,
          meta := { Source := "cache", Stale := false, FetchedAt := fmtW 0 },
          err := none, cache := some cacheW, refreshing := [],
          refreshRequested := false, refreshStarted := false,
          upstreamCalled := false } :=
  ⟨rfl, by decide,
    (C1_three_tier_freshness cfgW hashW parseW fmtW (some cacheW) [] "1h" "24h"
      [] 10 (.error "down")).1 resp301 0 rfl (by decide)⟩

/-- C3 (confirmed): `GetSnapshot` never returns an error when a usable
cache entry exists — every cache hit yields `err = none`, and when the
synchronous upstream fetch fails past the hard TTL the stale value is
returned with `source = "stale_cache"`, `stale = true` and the upstream
error attached in the meta; a non-`none` error (with `source = "error"`)
occurs only when no cached entry exists and the upstream call failed. -/
theorem C3_cache_hit_no_error (cfg : IntelConfig) (hash : String → String)
    (parse : String → Option Time) (fmt : Time → String)
    (cache : Option CacheState) (refreshing : List String)
    (timeframe newsTimespan : String) (watch : List String)
    (now : Time) (upstream : Except String IntelResponse) :
    (∀ cached fetchedAt,
      getCached parse cache (intelCacheKey hash timeframe newsTimespan watch)
        = some (cached, fetchedAt) →
      (GetSnapshot cfg hash parse fmt cache refreshing timeframe newsTimespan
        watch now upstream).err = none) ∧
    (∀ cached fetchedAt e,
      getCached parse cache (intelCacheKey hash timeframe newsTimespan watch)
        = some (cached, fetchedAt) →
      intelHardTTL cfg < now - fetchedAt →
      upstream = .error e →
      (GetSnapshot cfg hash parse fmt cache refreshing timeframe newsTimespan
          watch now upstream).resp = cached ∧
      (GetSnapshot cfg hash parse fmt cache refreshing timeframe newsTimespan
          watch now upstream).meta
        = { Source := "stale_cache", Stale := true, Err := e,
            FetchedAt := fmt fetchedAt }) ∧
    (∀ e,
      (GetSnapshot cfg hash parse fmt cache refreshing timeframe newsTimespan
        watch now upstream).err = some e →
      getCached parse cache (intelCacheKey hash timeframe newsTimespan watch)
          = none ∧
      upstream = .error e ∧
      (GetSnapshot cfg hash parse fmt cache refreshing timeframe newsTimespan
        watch now upstream).meta.Source = "error" ∧
      (GetSnapshot cfg hash parse fmt cache refreshing timeframe newsTimespan
        watch now upstream).meta.Err = e) := by
  refine ⟨?_, ?_, ?_⟩
  · intro cached fetchedAt hget
    by_cases h1 : now - fetchedAt ≤ cfg.CacheTTLIntel
    · simp [GetSnapshot, hget, h1]
    · by_cases h2 : now - fetchedAt ≤ intelHardTTL cfg
      · simp [GetSnapshot, hget, h1, h2]
      · cases upstream with
        | ok r => simp [GetSnapshot, hget, h1, h2, fetchAndCache]
        | error e => simp [GetSnapshot, hget, h1, h2, fetchAndCache]
  · intro cached fetchedAt e hget hhard hup
    subst hup
    have h1 : ¬ (now - fetchedAt ≤ cfg.CacheTTLIntel) := by
      have := cacheTTLIntel_le_hard cfg
      intro hcontra
      linarith
    have h2 : ¬ (now - fetchedAt ≤ intelHardTTL cfg) := not_le.mpr hhard
    constructor
    · simp [GetSnapshot, hget, h1, h2, fetchAndCache]
    · simp [GetSnapshot, hget, h1, h2, fetchAndCache]
  · intro e herr
    cases hget : getCached parse cache
        (intelCacheKey hash timeframe newsTimespan watch) with
    | some p =>
      exfalso
      obtain ⟨cached, fetchedAt⟩ := p
      by_cases h1 : now - fetchedAt ≤ cfg.CacheTTLIntel
      · simp [GetSnapshot, hget, h1] at herr
      · by_cases h2 : now - fetchedAt ≤ intelHardTTL cfg
        · simp [GetSnapshot, hget, h1, h2] at herr
        · cases upstream with
          | ok r => simp [GetSnapshot, hget, h1, h2, fetchAndCache] at herr
          | error e' => simp [GetSnapshot, hget, h1, h2, fetchAndCache] at herr
    | none =>
      cases upstream with
      | ok r => simp [GetSnapshot, hget, fetchAndCache] at herr
      | error e' =>
        have : e' = e := by
          simpa [GetSnapshot, hget, fetchAndCache] using herr
        subst this
        refine ⟨rfl, rfl, ?_, ?_⟩
        · simp [GetSnapshot, hget, fetchAndCache]
        · simp [GetSnapshot, hget, fetchAndCache]

/-- C3 (witness): the no-error clause applied to the witness cache at a
hard-expired age (`now = 500`) with the upstream failing: the call still
reports no error. -/
theorem C3_cache_hit_no_error_witness :
    (getCached parseW (some cacheW) (intelCacheKey hashW "1h" "24h" [])
      = some (resp301, 0)) ∧
    (GetSnapshot cfgW hashW parseW fmtW (some cacheW) [] "1h" "24h" [] 500
      (.error "down")).err = none :=
  ⟨rfl,
    (C3_cache_hit_no_error cfgW hashW parseW fmtW (some cacheW) [] "1h" "24h"
      [] 500 (.error "down")).1 resp301 0 rfl⟩

/-- A successful classification comes from a decoded HTTP response with
status below 300. -/
theorem tryResult_ok_elim (t : TryOutcome) (r : IntelResponse)
    (h : tryResult t = .ok r) :
    ∃ status, t = .httpResp status (some r) ∧ status < 300 := by
  cases t with
  | transportErr e => simp [tryResult] at h
  | httpResp status d =>
    by_cases hs : status ≥ 300
    · simp [tryResult, hs] at h
    · cases d with
      | none => simp [tryResult, hs] at h
      | some out =>
        simp [tryResult, hs] at h
        exact ⟨status, by rw [h], by omega⟩

/-- A successful `RunIntel` result comes from a decoded attempt. -/
theorem RunIntel_ok (cb : circuitBreaker) (now : Time)
    (tries : Nat → TryOutcome) (ctxDone : Nat → Bool) (r : IntelResponse)
    (h : (RunIntel cb now tries ctxDone).1 = .ok r) :
    ∃ i, tryResult (tries i) = .ok r := by
  unfold RunIntel at h
  cases hcb : cb.allow now with
  | mk b cb' =>
    rw [hcb] at h
    cases b with
    | false => simp at h
    | true => exact runIntelAttempts_ok tries ctxDone cb' now 3 0 "" r h

/-- C6 (confirmed): cache non-poisoning.  First conjunct: for any upstream
outcome whose response has an empty or whitespace-only `TsISO`,
`fetchAndCache` leaves the cache unchanged (and likewise on upstream
failure).  Second conjunct, composed with the retry loop: if the decoded
body of every HTTP attempt — whatever its status code — has a blank
`TsISO`, the cache after `fetchAndCache` is exactly the cache before. -/
theorem C6_cache_non_poisoning (cfg : IntelConfig) (fmt : Time → String)
    (cache : Option CacheState) (key : String) (now : Time) :
    (∀ (upstream : Except String IntelResponse),
      (∀ resp, upstream = .ok resp → stringsTrimSpace resp.TsISO = "") →
      (fetchAndCache cfg fmt cache key upstream now).cache = cache) ∧
    (∀ (cb : circuitBreaker) (now2 : Time) (tries : Nat → TryOutcome)
        (ctxDone : Nat → Bool),
      (∀ i status r, tries i = .httpResp status (some r) →
        stringsTrimSpace r.TsISO = "") →
      (fetchAndCache cfg fmt cache key (RunIntel cb now2 tries ctxDone).1
        now).cache = cache) := by
  constructor
  · intro upstream hblank
    cases upstream with
    | error e => simp [fetchAndCache]
    | ok resp =>
      have hb : hasCacheableIntel resp = false := by
        simp [hasCacheableIntel, hblank resp rfl]
      cases cache with
      | none => simp [fetchAndCache]
      | some cs => simp [fetchAndCache, hb]
  · intro cb now2 tries ctxDone hblank
    cases hr : (RunIntel cb now2 tries ctxDone).1 with
    | error e => simp [fetchAndCache, hr]
    | ok resp =>
      obtain ⟨i, hi⟩ := RunIntel_ok cb now2 tries ctxDone resp hr
      obtain ⟨status, hteq, _⟩ := tryResult_ok_elim (tries i) resp hi
      have hb : hasCacheableIntel resp = false := by
        simp [hasCacheableIntel, hblank i status resp hteq]
      cases cache with
      | none => simp [fetchAndCache, hr]
      | some cs => simp [fetchAndCache, hr, hb]

/-- C6 (witness): the composed clause applied with a breaker-open upstream
(every attempt a 200 with a blank-`TsISO` body) and the witness cache:
the cache is unchanged. -/
theorem C6_cache_non_poisoning_witness :
    (∀ (i : Nat) (status : Int) (r : IntelResponse),
      (fun _ : Nat => TryOutcome.httpResp 200 (some zeroIntelResponse)) i
        = TryOutcome.httpResp status (some r) →
      stringsTrimSpace r.TsISO = "") ∧
    (fetchAndCache cfgW fmtW (some cacheW) keyW
      (RunIntel ⟨0, 3, 0, 60⟩ 0
        (fun _ => TryOutcome.httpResp 200 (some zeroIntelResponse))
        (fun _ => false)).1 0).cache = some cacheW :=
  ⟨fun i status r h => by
      cases h
      rfl,
    (C6_cache_non_poisoning cfgW fmtW (some cacheW) keyW 0).2 ⟨0, 3, 0, 60⟩ 0
      (fun _ => TryOutcome.httpResp 200 (some zeroIntelResponse))
      (fun _ => false)
      (fun i status r h => by
        cases h
        rfl)⟩

/-- C10 (confirmed): `getCached` returns a miss — never an error and never
a partial value — whenever the stored bytes fail to decode, the decoded
response has a blank `TsISO`, or the stored `fetched_at` fails to parse as
RFC3339; and whenever `getCached` misses, `GetSnapshot` falls through to
the synchronous upstream fetch (no cache fast path, no background
refresh). -/
theorem C10_getCached_miss (parse : String → Option Time) (cs : CacheState)
    (key : String) :
    (∀ s, cacheGet cs key = some (.junk s) →
      getCached parse (some cs) key = none) ∧
    (∀ e, cacheGet cs key = some (.entry e) →
      stringsTrimSpace e.Resp.TsISO = "" →
      getCached parse (some cs) key = none) ∧
    (∀ e, cacheGet cs key = some (.entry e) →
      parse e.FetchedAt = none →
      getCached parse (some cs) key = none) ∧
    (∀ (cfg : IntelConfig) (hash : String → String) (fmt : Time → String)
        (cache : Option CacheState) (refreshing : List String)
        (timeframe newsTimespan : String) (watch : List String)
        (now : Time) (upstream : Except String IntelResponse),
      getCached parse cache (intelCacheKey hash timeframe newsTimespan watch)
        = none →
      (GetSnapshot cfg hash parse fmt cache refreshing timeframe newsTimespan
        watch now upstream).upstreamCalled = true ∧
      (GetSnapshot cfg hash parse fmt cache refreshing timeframe newsTimespan
        watch now upstream).refreshRequested = false) := by
  refine ⟨?_, ?_, ?_, ?_⟩
  · intro s hb
    simp [getCached, hb, UnmarshalCache]
  · intro e hb hblank
    have hc : hasCacheableIntel e.Resp = false := by
      simp [hasCacheableIntel, hblank]
    simp [getCached, hb, UnmarshalCache, hc]
  · intro e hb hparse
    by_cases hc : hasCacheableIntel e.Resp
    · simp [getCached, hb, UnmarshalCache, hc, hparse]
    · simp [getCached, hb, UnmarshalCache, hc]
  · intro cfg hash fmt cache refreshing timeframe newsTimespan watch now
      upstream hnone
    cases upstream with
    | ok r =>
      exact ⟨by simp [GetSnapshot, hnone, fetchAndCache],
        by simp [GetSnapshot, hnone, fetchAndCache]⟩
    | error e =>
      exact ⟨by simp [GetSnapshot, hnone, fetchAndCache],
        by simp [GetSnapshot, hnone, fetchAndCache]⟩

/-- C10 (witness): a junk blob behind the witness key is a miss, and the
resulting `GetSnapshot` takes the synchronous fetch path. -/
theorem C10_getCached_miss_witness :
    (cacheGet [(keyW, CacheBlob.junk "garbage", 120)] keyW
      = some (CacheBlob.junk "garbage")) ∧
    getCached parseW (some [(keyW, CacheBlob.junk "garbage", 120)]) keyW
      = none ∧
    (GetSnapshot cfgW hashW parseW fmtW
      (some [(keyW, CacheBlob.junk "garbage", 120)]) [] "1h" "24h" [] 0
      (.ok resp301)).upstreamCalled = true :=
  ⟨rfl,
    (C10_getCached_miss parseW [(keyW, CacheBlob.junk "garbage", 120)] keyW).1
      "garbage" rfl,
    ((C10_getCached_miss parseW [(keyW, CacheBlob.junk "garbage", 120)]
        keyW).2.2.2 cfgW hashW fmtW
        (some [(keyW, CacheBlob.junk "garbage", 120)]) [] "1h" "24h" [] 0
        (.ok resp301)
        ((C10_getCached_miss parseW [(keyW, CacheBlob.junk "garbage", 120)]
          keyW).1 "garbage" rfl)).1⟩

/-- One `GetSnapshot` call in the stale-but-within-hard-TTL window: the
cached value is returned immediately (no upstream call, no error) and a
background refresh is requested through the refresh lock. -/
theorem GetSnapshot_stale (cfg : IntelConfig) (hash : String → String)
    (parse : String → Option Time) (fmt : Time → String)
    (cache : Option CacheState) (refreshing : List String)
    (timeframe newsTimespan : String) (watch : List String)
    (now : Time) (upstream : Except String IntelResponse)
    (cached : IntelResponse) (fetchedAt : Time)
    (hget : getCached parse cache (intelCacheKey hash timeframe newsTimespan watch)
      = some (cached, fetchedAt))
    (hsoft : cfg.CacheTTLIntel < now - fetchedAt)
    (hhard : now - fetchedAt ≤ intelHardTTL cfg) :
    GetSnapshot cfg hash parse fmt cache refreshing timeframe newsTimespan
        watch now upstream
      = { resp := cached,
          meta := { Source := "stale_cache", Stale := true,
                    FetchedAt := fmt fetchedAt },
          err := none, cache := cache,
          refreshing := (refreshAsync refreshing
            (intelCacheKey hash timeframe newsTimespan watch)).1,
          refreshRequested := true,
          refreshStarted := (refreshAsync refreshing
            (intelCacheKey hash timeframe newsTimespan watch)).2,
          upstreamCalled := false } := by
  simp [GetSnapshot, hget, not_le.mpr hsoft, hhard]

/-- `N` back-to-back `GetSnapshot` calls for the same query against the
same cache and clock (the serialization of `N` concurrent callers: each
critical section over the refresh lock runs atomically, and no refresh
completes in between).  Returns the list of per-caller results and the
final refresh-lock state. -/
def staleBatch (cfg : IntelConfig) (hash : String → String)
    (parse : String → Option Time) (fmt : Time → String)
    (cache : Option CacheState) (timeframe newsTimespan : String)
    (watch : List String) (now : Time)
    (upstream : Except String IntelResponse) :
    Nat → List String → List SnapResult × List String
  | 0, refreshing => ([], refreshing)
  | n + 1, refreshing =>
    let r := GetSnapshot cfg hash parse fmt cache refreshing timeframe
      newsTimespan watch now upstream
    let rest := staleBatch cfg hash parse fmt cache timeframe newsTimespan
      watch now upstream n r.refreshing
    (r :: rest.1, rest.2)

/-- Stale-window calls that find the refresh already in flight: every
caller gets the same stale value, starts nothing, and the lock state is
untouched. -/
theorem staleBatch_inflight (cfg : IntelConfig) (hash : String → String)
    (parse : String → Option Time) (fmt : Time → String)
    (cache : Option CacheState) (timeframe newsTimespan : String)
    (watch : List String) (now : Time)
    (upstream : Except String IntelResponse)
    (cached : IntelResponse) (fetchedAt : Time)
    (hget : getCached parse cache (intelCacheKey hash timeframe newsTimespan watch)
      = some (cached, fetchedAt))
    (hsoft : cfg.CacheTTLIntel < now - fetchedAt)
    (hhard : now - fetchedAt ≤ intelHardTTL cfg) :
    ∀ (m : Nat) (R : List String),
    intelCacheKey hash timeframe newsTimespan watch ∈ R →
    (∀ r ∈ (staleBatch cfg hash parse fmt cache timeframe newsTimespan watch
        now upstream m R).1,
      r.resp = cached ∧ r.meta.Source = "stale_cache" ∧ r.meta.Stale = true ∧
      r.err = none ∧ r.upstreamCalled = false ∧ r.refreshStarted = false) ∧
    (staleBatch cfg hash parse fmt cache timeframe newsTimespan watch now
      upstream m R).2 = R := by
  intro m
  induction m with
  | zero =>
    intro R _
    constructor
    · intro r hr
      simp [staleBatch] at hr
    · rfl
  | succ k ih =>
    intro R hin
    have hstep := GetSnapshot_stale cfg hash parse fmt cache R timeframe
      newsTimespan watch now upstream cached fetchedAt hget hsoft hhard
    have hra : refreshAsync R
        (intelCacheKey hash timeframe newsTimespan watch) = (R, false) := by
      simp [refreshAsync, hin]
    constructor
    · intro r hr
      simp only [staleBatch] at hr
      rw [hstep] at hr
      simp only [hra] at hr
      rcases List.mem_cons.mp hr with hfirst | hrest
      · subst hfirst
        exact ⟨rfl, rfl, rfl, rfl, rfl, rfl⟩
      · exact (ih R hin).1 r hrest
    · simp only [staleBatch]
      rw [hstep]
      simp only [hra]
      exact (ih R hin).2

/-- C2 (confirmed): single-flight refresh.  When `n ≥ 1` serialized
`GetSnapshot` calls all observe the same cached entry in the
stale-but-within-hard-TTL window and no refresh is initially in flight,
every caller immediately receives the same stale value with no error and
no synchronous upstream call, and exactly one background refresh is
started (`min n 1 = 1`); the refresh lock afterwards holds exactly the
one key. -/
theorem C2_single_flight (cfg : IntelConfig) (hash : String → String)
    (parse : String → Option Time) (fmt : Time → String)
    (cache : Option CacheState) (timeframe newsTimespan : String)
    (watch : List String) (now : Time)
    (upstream : Except String IntelResponse)
    (cached : IntelResponse) (fetchedAt : Time) (n : Nat) (R0 : List String)
    (hget : getCached parse cache (intelCacheKey hash timeframe newsTimespan watch)
      = some (cached, fetchedAt))
    (hsoft : cfg.CacheTTLIntel < now - fetchedAt)
    (hhard : now - fetchedAt ≤ intelHardTTL cfg)
    (hfree : intelCacheKey hash timeframe newsTimespan watch ∉ R0) :
    (∀ r ∈ (staleBatch cfg hash parse fmt cache timeframe newsTimespan watch
        now upstream n R0).1,
      r.resp = cached ∧ r.meta.Source = "stale_cache" ∧ r.meta.Stale = true ∧
      r.err = none ∧ r.upstreamCalled = false) ∧
    ((staleBatch cfg hash parse fmt cache timeframe newsTimespan watch now
        upstream n R0).1.filter (fun r => r.refreshStarted)).length
      = min n 1 ∧
    (staleBatch cfg hash parse fmt cache timeframe newsTimespan watch now
        upstream n R0).2
      = (if n = 0 then R0
          else intelCacheKey hash timeframe newsTimespan watch :: R0) := by
  cases n with
  | zero =>
    refine ⟨?_, ?_, ?_⟩
    · intro r hr
      simp [staleBatch] at hr
    · rfl
    · rfl
  | succ k =>
    have hstep := GetSnapshot_stale cfg hash parse fmt cache R0 timeframe
      newsTimespan watch now upstream cached fetchedAt hget hsoft hhard
    have hra : refreshAsync R0 (intelCacheKey hash timeframe newsTimespan watch)
        = (intelCacheKey hash timeframe newsTimespan watch :: R0, true) := by
      simp [refreshAsync, hfree]
    have hmem : intelCacheKey hash timeframe newsTimespan watch
        ∈ intelCacheKey hash timeframe newsTimespan watch :: R0 :=
      List.mem_cons_self _ _
    have haux := staleBatch_inflight cfg hash parse fmt cache timeframe
      newsTimespan watch now upstream cached fetchedAt hget hsoft hhard k
      (intelCacheKey hash timeframe newsTimespan watch :: R0) hmem
    refine ⟨?_, ?_, ?_⟩
    · intro r hr
      simp only [staleBatch] at hr
      rw [hstep] at hr
      simp only [hra] at hr
      rcases List.mem_cons.mp hr with hfirst | hrest
      · subst hfirst
        exact ⟨rfl, rfl, rfl, rfl, rfl⟩
      · obtain ⟨h1, h2, h3, h4, h5, _⟩ := haux.1 r hrest
        exact ⟨h1, h2, h3, h4, h5⟩
    · simp only [staleBatch]
      rw [hstep]
      simp only [hra, List.filter_cons]
      have hrest0 : ((staleBatch cfg hash parse fmt cache timeframe
          newsTimespan watch now upstream k
          (intelCacheKey hash timeframe newsTimespan watch :: R0)).1.filter
            (fun r => r.refreshStarted)).length = 0 := by
        rw [List.length_eq_zero, List.filter_eq_nil_iff]
        intro r hr
        have := (haux.1 r hr).2.2.2.2.2
        simp [this]
      simp [hrest0]
    · simp only [staleBatch]
      rw [hstep]
      simp only [hra]
      simp [haux.2]

/-- C2 (witness): three serialized stale-window calls against the witness
cache at age 45 (soft 30 < 45 ≤ hard 120) with an empty refresh lock:
all three compute, and exactly one refresh starts. -/
theorem C2_single_flight_witness :
    (getCached parseW (some cacheW) (intelCacheKey hashW "1h" "24h" [])
      = some (resp301, 0)) ∧
    (cfgW.CacheTTLIntel < (45 : Int) - 0) ∧
    ((45 : Int) - 0 ≤ intelHardTTL cfgW) ∧
    (((staleBatch cfgW hashW parseW fmtW (some cacheW) "1h" "24h" [] 45
        (.error "down") 3 []).1.filter (fun r => r.refreshStarted)).length
      = min 3 1) :=
  ⟨rfl, by decide, by decide,
    (C2_single_flight cfgW hashW parseW fmtW (some cacheW) "1h" "24h" [] 45
      (.error "down") resp301 0 3 [] rfl (by decide) (by decide)
      (by decide)).2.1⟩

/-- A key misses the registry exactly when it is not among the keys. -/
theorem topicsGet_eq_none_iff (ts : Topics) (key : String) :
    topicsGet ts key = none ↔ key ∉ ts.map Prod.fst := by
  induction ts with
  | nil => simp [topicsGet]
  | cons p ps ih =>
    rw [topicsGet, List.map_cons, List.mem_cons]
    by_cases h : p.1 = key
    · simp [h]
    · rw [if_neg h, ih]
      constructor
      · intro h1 h2
        rcases h2 with h2 | h2
        · exact h h2.symm
        · exact h1 h2
      · intro h1 h2
        exact h1 (Or.inr h2)

/-- A successful lookup exhibits a member of the registry. -/
theorem topicsGet_mem (ts : Topics) (key : String) (t : intelTopic)
    (h : topicsGet ts key = some t) : (key, t) ∈ ts := by
  induction ts with
  | nil => simp [topicsGet] at h
  | cons p ps ih =>
    obtain ⟨a, b⟩ := p
    by_cases hp : a = key
    · subst hp
      rw [topicsGet, if_pos rfl] at h
      cases h
      exact List.mem_cons_self _ _
    · rw [topicsGet, if_neg hp] at h
      exact List.mem_cons_of_mem _ (ih h)

/-- Lookup after a replacing write. -/
theorem topicsGet_topicsSet (ts : Topics) (key : String) (t : intelTopic) :
    topicsGet (topicsSet ts key t) key
      = (topicsGet ts key).map (fun _ => t) := by
  induction ts with
  | nil => simp [topicsGet, topicsSet]
  | cons p ps ih =>
    simp only [topicsSet] at ih ⊢
    by_cases h : p.1 = key
    · simp [topicsGet, h]
    · simp [topicsGet, h, ih]

/-- Lookup after removing the key. -/
theorem topicsGet_topicsRemove (ts : Topics) (key : String) :
    topicsGet (topicsRemove ts key) key = none := by
  induction ts with
  | nil => simp [topicsGet, topicsRemove]
  | cons p ps ih =>
    by_cases h : p.1 = key
    · simpa [topicsRemove, h] using ih
    · simpa [topicsRemove, topicsGet, h] using ih

/-- A replacing write leaves the key list unchanged. -/
theorem keys_topicsSet (ts : Topics) (key : String) (t : intelTopic) :
    (topicsSet ts key t).map Prod.fst = ts.map Prod.fst := by
  induction ts with
  | nil => rfl
  | cons p ps ih =>
    simp only [topicsSet, List.map_cons] at ih ⊢
    by_cases h : p.1 = key
    · rw [if_pos h, ih]
      simp [h]
    · rw [if_neg h, ih]

/-- A member of the registry after a replacing write is the written pair or
an old member. -/
theorem mem_topicsSet_elim (ts : Topics) (key : String) (t : intelTopic)
    (q : String × intelTopic) (h : q ∈ topicsSet ts key t) :
    q = (key, t) ∨ q ∈ ts := by
  obtain ⟨p, hp, heq⟩ := List.mem_map.mp h
  by_cases hk : p.1 = key
  · rw [if_pos hk] at heq
    exact Or.inl heq.symm
  · rw [if_neg hk] at heq
    exact Or.inr (heq ▸ hp)

/-- Writing the same key twice keeps only the second write. -/
theorem topicsSet_topicsSet (ts : Topics) (key : String) (t1 t2 : intelTopic) :
    topicsSet (topicsSet ts key t1) key t2 = topicsSet ts key t2 := by
  induction ts with
  | nil => rfl
  | cons p ps ih =>
    by_cases h : p.1 = key
    · simp [topicsSet, h] at ih ⊢
      exact ih
    · simp [topicsSet, h] at ih ⊢
      exact ih

/-- Unfolding `unsubscribe` when the key is absent. -/
theorem unsubscribe_get_none (ts : Topics) (key : String) (ch : Nat)
    (h : topicsGet ts key = none) : unsubscribe ts key ch = ts := by
  rw [unsubscribe, h]

/-- Unfolding `unsubscribe` when the key is present. -/
theorem unsubscribe_get_some (ts : Topics) (key : String) (ch : Nat)
    (t : intelTopic) (h : topicsGet ts key = some t) :
    unsubscribe ts key ch
      = (if t.subs.erase ch = [] then topicsRemove ts key
          else topicsSet ts key
            { subs := t.subs.erase ch, hasLoop := t.hasLoop,
              last := t.last }) := by
  rw [unsubscribe, h]

/-- C7 (confirmed): topic lifecycle.  Subscribing to a key with no topic
creates exactly one topic holding the one new subscriber and starts exactly
one refresh loop, delivering nothing (no last snapshot yet); joining an
existing topic starts no loop and immediately delivers the topic's last
known snapshot; both `Subscribe` and `unsubscribe` preserve the registry
invariant that every registered topic has a non-empty, duplicate-free
subscriber set and a running loop; when the last subscriber unsubscribes
the topic is removed (its loop cancelled, its key unregistered); and
`unsubscribe` is idempotent. -/
theorem C7_topic_lifecycle :
    (∀ (ts : Topics) (key : String) (ch : Nat), topicsGet ts key = none →
      (Subscribe ts key ch).loopStarted = true ∧
      (Subscribe ts key ch).delivered = none ∧
      topicsGet (Subscribe ts key ch).topics key
        = some { subs := [ch], hasLoop := true, last := none }) ∧
    (∀ (ts : Topics) (key : String) (ch : Nat) (t : intelTopic),
      topicsGet ts key = some t →
      (Subscribe ts key ch).loopStarted = false ∧
      (Subscribe ts key ch).delivered = t.last) ∧
    (∀ (ts : Topics) (key : String) (ch : Nat), TopicsWF ts →
      TopicsWF (Subscribe ts key ch).topics) ∧
    (∀ (ts : Topics) (key : String) (ch : Nat), TopicsWF ts →
      TopicsWF (unsubscribe ts key ch)) ∧
    (∀ (ts : Topics) (key : String) (ch : Nat) (t : intelTopic),
      topicsGet ts key = some t → t.subs = [ch] →
      topicsGet (unsubscribe ts key ch) key = none) ∧
    (∀ (ts : Topics) (key : String) (ch : Nat), TopicsWF ts →
      unsubscribe (unsubscribe ts key ch) key ch = unsubscribe ts key ch) := by
  refine ⟨?_, ?_, ?_, ?_, ?_, ?_⟩
  · intro ts key ch hnone
    refine ⟨?_, ?_, ?_⟩
    · simp [Subscribe, hnone]
    · simp [Subscribe, hnone]
    · simp [Subscribe, hnone, topicsGet]
  · intro ts key ch t hsome
    exact ⟨by simp [Subscribe, hsome], by simp [Subscribe, hsome]⟩
  · intro ts key ch hwf
    cases hget : topicsGet ts key with
    | none =>
      simp only [Subscribe, hget]
      constructor
      · simp only [List.map_cons, List.nodup_cons]
        exact ⟨(topicsGet_eq_none_iff ts key).mp hget, hwf.1⟩
      · intro p hp
        rcases List.mem_cons.mp hp with hnew | hold
        · subst hnew
          exact ⟨by simp, by simp, rfl⟩
        · exact hwf.2 p hold
    | some t =>
      have hwt := hwf.2 (key, t) (topicsGet_mem ts key t hget)
      simp only [Subscribe, hget]
      constructor
      · rw [keys_topicsSet]
        exact hwf.1
      · intro p hp
        rcases mem_topicsSet_elim _ _ _ _ hp with hnew | hold
        · subst hnew
          by_cases hch : ch ∈ t.subs
          · simpa [hch] using ⟨hwt.1, hwt.2.1, hwt.2.2⟩
          · simp only [hch, if_neg, if_false]
            exact ⟨by simp, List.nodup_cons.mpr ⟨hch, hwt.2.1⟩, hwt.2.2⟩
        · exact hwf.2 p hold
  · intro ts key ch hwf
    cases hget : topicsGet ts key with
    | none => rw [unsubscribe_get_none ts key ch hget]; exact hwf
    | some t =>
      have hwt := hwf.2 (key, t) (topicsGet_mem ts key t hget)
      rw [unsubscribe_get_some ts key ch t hget]
      by_cases hempty : t.subs.erase ch = []
      · rw [if_pos hempty]
        constructor
        · exact hwf.1.sublist ((List.filter_sublist ts).map Prod.fst)
        · intro p hp
          exact hwf.2 p (List.mem_of_mem_filter hp)
      · rw [if_neg hempty]
        constructor
        · rw [keys_topicsSet]
          exact hwf.1
        · intro p hp
          rcases mem_topicsSet_elim _ _ _ _ hp with hnew | hold
          · subst hnew
            exact ⟨hempty, hwt.2.1.erase ch, hwt.2.2⟩
          · exact hwf.2 p hold
  · intro ts key ch t hget hlast
    have hempty : t.subs.erase ch = [] := by
      rw [hlast]
      exact List.erase_cons_head ch []
    rw [unsubscribe_get_some ts key ch t hget, if_pos hempty]
    exact topicsGet_topicsRemove ts key
  · intro ts key ch hwf
    cases hget : topicsGet ts key with
    | none =>
      rw [unsubscribe_get_none ts key ch hget,
        unsubscribe_get_none ts key ch hget]
    | some t =>
      have hwt := hwf.2 (key, t) (topicsGet_mem ts key t hget)
      by_cases hempty : t.subs.erase ch = []
      · rw [unsubscribe_get_some ts key ch t hget, if_pos hempty,
          unsubscribe_get_none (topicsRemove ts key) key ch
            (topicsGet_topicsRemove ts key)]
      · have hnotmem : ch ∉ t.subs.erase ch := hwt.2.1.not_mem_erase
        have herase2 : (t.subs.erase ch).erase ch = t.subs.erase ch :=
          List.erase_of_not_mem hnotmem
        have hget2 : topicsGet (topicsSet ts key
            { subs := t.subs.erase ch, hasLoop := t.hasLoop,
              last := t.last }) key
            = some { subs := t.subs.erase ch, hasLoop := t.hasLoop,
                     last := t.last } := by
          rw [topicsGet_topicsSet ts key, hget]
          rfl
        rw [unsubscribe_get_some ts key ch t hget, if_neg hempty,
          unsubscribe_get_some _ key ch _ hget2]
        simp only [herase2, hempty, if_neg, if_false]
        exact topicsSet_topicsSet ts key _ _

/-- C7 (witness): the creation clause applied to the empty registry. -/
theorem C7_topic_lifecycle_witness :
    (topicsGet [] "k" = none) ∧
    ((Subscribe [] "k" 7).loopStarted = true ∧
      (Subscribe [] "k" 7).delivered = none ∧
      topicsGet (Subscribe [] "k" 7).topics "k"
        = some { subs := [7], hasLoop := true, last := none }) :=
  ⟨rfl, C7_topic_lifecycle.1 [] "k" 7 rfl⟩

/-- Lower-casing never turns a non-empty string empty (it maps runes
one-to-one). -/
theorem stringsToLower_eq_empty_iff (s : String) :
    stringsToLower s = "" ↔ s = "" := by
  rw [stringsToLower, String.ext_iff, String.ext_iff]
  simp

/-- Dropping empty entries commutes with lower-casing the watchlist. -/
theorem filter_map_stringsToLower (w : List String) :
    (w.filter (fun x => x ≠ "")).map stringsToLower
      = (w.map stringsToLower).filter (fun x => x ≠ "") := by
  induction w with
  | nil => rfl
  | cons x xs ih =>
    simp only [ne_eq, decide_not] at ih ⊢
    by_cases hx : x = ""
    · subst hx
      have h0 : stringsToLower "" = "" := rfl
      simp [h0, ih]
    · have hlx : stringsToLower x ≠ "" :=
        fun hc => hx ((stringsToLower_eq_empty_iff x).mp hc)
      simp [hx, hlx, ih]

/-- C9 (confirmed): query-key normalization.  Two queries with the same
timeframe and news timespan whose watchlists are equal up to element
ordering and letter case (their lower-casings are permutations of each
other) produce the same cache key: `intelCacheKey` drops empties,
lower-cases, sorts and joins before hashing, so ordering and case cannot
influence the key. -/
theorem C9_cache_key_normalization (hash : String → String)
    (timeframe newsTimespan : String) (w1 w2 : List String)
    (hperm : (w1.map stringsToLower).Perm (w2.map stringsToLower)) :
    intelCacheKey hash timeframe newsTimespan w1
      = intelCacheKey hash timeframe newsTimespan w2 := by
  have h1 : ((w1.filter (fun x => x ≠ "")).map stringsToLower).Perm
      ((w2.filter (fun x => x ≠ "")).map stringsToLower) := by
    rw [filter_map_stringsToLower, filter_map_stringsToLower]
    exact hperm.filter _
  have hp : (((w1.filter (fun x => x ≠ "")).map stringsToLower).insertionSort
        (fun a b => a ≤ b)).Perm
      (((w2.filter (fun x => x ≠ "")).map stringsToLower).insertionSort
        (fun a b => a ≤ b)) :=
    (List.perm_insertionSort _ _).trans
      (h1.trans (List.perm_insertionSort _ _).symm)
  have hs1 : List.Sorted (fun a b : String => a ≤ b)
      (((w1.filter (fun x => x ≠ "")).map stringsToLower).insertionSort
        (fun a b => a ≤ b)) :=
    List.sorted_insertionSort _ _
  have hs2 : List.Sorted (fun a b : String => a ≤ b)
      (((w2.filter (fun x => x ≠ "")).map stringsToLower).insertionSort
        (fun a b => a ≤ b)) :=
    List.sorted_insertionSort _ _
  simp only [intelCacheKey]
  rw [List.eq_of_perm_of_sorted hp hs1 hs2]

/-- C9 (witness): the theorem applied to `["BTC", "eth", ""]` and
`["", "ETH", "btc"]`, which differ only in ordering, case and an empty
entry's position. -/
theorem C9_cache_key_normalization_witness :
    ((["BTC", "eth", ""].map stringsToLower).Perm
      (["", "ETH", "btc"].map stringsToLower)) ∧
    intelCacheKey hashW "1h" "24h" ["BTC", "eth", ""]
      = intelCacheKey hashW "1h" "24h" ["", "ETH", "btc"] :=
  ⟨by decide,
    C9_cache_key_normalization hashW "1h" "24h" ["BTC", "eth", ""]
      ["", "ETH", "btc"] (by decide)⟩

end Macroquant
